/-
Verification of the reconciliation core of `mac_configurator.py`.

The embedding translates, from the source:
  * the JSON value universe the program manipulates (booleans, integers,
    strings, lists of item names, mappings from bundle id to enabled flag),
    together with Python's `==` semantics (including `True == 1`,
    order-insensitive dict comparison, and `x == None` being `False` for
    every non-None value) and Python truthiness;
  * the per-setting schema validation performed by `ConfigManager.set_setting`
    via `jsonschema.validate` against the setting's sub-schema;
  * the `ConfigManager` profile store (in-memory `config` dict plus the
    persisted file written by `save_config`);
  * `MacConfigurator._build_categories_from_schema` (the category-bucketed
    ordering of settings, with unresolvable handlers skipped);
  * `MacConfigurator.apply_settings` (the scan that partitions configured
    settings into to-apply / skipped-admin, and the apply loop with
    success/failure counting);
  * `WiFiHandler.get_current_state` (an observe path that downgrades a
    failed external command to `None`);
  * the `--apply` branch of `main`, including the trailing interactive
    `console.input` and the process exit code;
  * the status column of `_manage_category_settings` (the diff display).
-/
import Mathlib

namespace MacConfigurator

/-! ## Values

The JSON values that occur as configured and observed setting values:
booleans, integers, strings, lists of strings (`startup_items_blocked`)
and string-to-bool mappings (`background_app_permissions`,
`system_extension_preferences`).  Python `None` is represented by `none`
at type `Option Value`, never as a `Value`. -/

inductive Value where
  | bool (b : Bool)
  | int (n : Int)
  | str (s : String)
  | list (xs : List String)
  | dict (m : List (String × Bool))
  deriving Repr, DecidableEq

/-- Python `==` on these values.  `True == 1` and `False == 0` hold across
the bool/int divide; lists compare elementwise; dicts compare as unordered
mappings (same size and every key/value pair of one found in the other);
all other cross-type comparisons are `False`. -/
def pyEq : Value → Value → Bool
  | .bool a, .bool b => a == b
  | .bool a, .int n => (if a then (1 : Int) else 0) == n
  | .int n, .bool a => n == (if a then (1 : Int) else 0)
  | .int a, .int b => a == b
  | .str a, .str b => a == b
  | .list a, .list b => a == b
  | .dict a, .dict b =>
      a.length == b.length && a.all (fun p => b.lookup p.1 == some p.2)
  | _, _ => false

/-- Python `==` lifted to optional values: `None == None` is `True`, and
`None` compared with any of our (non-None) values is `False`. -/
def pyEqOpt : Option Value → Option Value → Bool
  | none, none => true
  | some a, some b => pyEq a b
  | _, _ => false

/-- Python truthiness of a value (`if configured_value:`). -/
def pyTruthy : Value → Bool
  | .bool b => b
  | .int n => n != 0
  | .str s => s ≠ ""
  | .list xs => xs ≠ []
  | .dict m => m ≠ []

/-! ## Schema and validation

A setting's entry under `properties.settings.properties` in
`settings_schema.json`, as consumed by `ConfigManager.set_setting` and
`MacConfigurator._build_categories_from_schema`: a JSON type (with the
bounds / enum refinements the source reads), a category, a handler class
name, a display title and the `requires_admin` flag. -/

inductive VType where
  | boolean
  | integer (lo hi : Option Int)
  | enum (choices : List String)
  | string
  | array
  | object
  deriving Repr, DecidableEq

structure SettingSchema where
  key : String
  title : String
  category : String
  handler : String
  vtype : VType
  requires_admin : Bool
  deriving Repr, DecidableEq

/-- `jsonschema.validate(instance=value, schema=setting_schema)` for one
setting's sub-schema: type check, then the integer bounds or the enum
membership.  (python-jsonschema rejects a bool where an integer is
required, hence the strict per-constructor match.) -/
def validateValue (t : VType) (v : Value) : Bool :=
  match t, v with
  | .boolean, .bool _ => true
  | .integer lo hi, .int n =>
      (match lo with | none => true | some l => l ≤ n) &&
      (match hi with | none => true | some h => n ≤ h)
  | .enum cs, .str s => cs.contains s
  | .string, .str _ => true
  | .array, .list _ => true
  | .object, .dict _ => true
  | _, _ => false

/-- Look a setting key up in the schema's `settings.properties` map. -/
def findSchema (schemas : List SettingSchema) (key : String) : Option SettingSchema :=
  schemas.find? (fun s => s.key == key)

/-! ## ConfigManager (profile store)

`self.config['settings']` is a mapping from setting id to configured
value; we model it as an association list in insertion order with unique
keys.  The store tracks both the in-memory mapping and the persisted
file's copy, because `set_setting` mutates memory before `save_config`
writes the file. -/

abbrev Settings := List (String × Value)

/-- `self.config['settings'].get(key)`. -/
def settingsGet : Settings → String → Option Value
  | [], _ => none
  | p :: rest, key => if p.1 = key then some p.2 else settingsGet rest key

/-- `key in self.config['settings']`. -/
def hasKey : Settings → String → Bool
  | [], _ => false
  | p :: rest, key => p.1 = key || hasKey rest key

/-- `self.config['settings'][key] = value`: overwrite in place if the key
exists, else append (Python dict insertion semantics). -/
def settingsSet : Settings → String → Value → Settings
  | [], key, v => [(key, v)]
  | p :: rest, key, v =>
      if p.1 = key then (key, v) :: rest else p :: settingsSet rest key v

/-- One stored entry names a known setting and satisfies its sub-schema. -/
def entryValid (schemas : List SettingSchema) (p : String × Value) : Bool :=
  match findSchema schemas p.1 with
  | some s => validateValue s.vtype p.2
  | none => false

/-- Whole-config validation as performed by `save_config` before writing. -/
def validConfig (schemas : List SettingSchema) (cfg : Settings) : Bool :=
  cfg.all (entryValid schemas)

/-- The store: in-memory `self.config['settings']` and the persisted
file's settings mapping. -/
structure Store where
  mem : Settings
  file : Settings
  deriving Repr, DecidableEq

inductive SetError where
  | unknownSetting
  | invalidValue
  | saveValidationFailed
  deriving Repr, DecidableEq

/-- `ConfigManager.set_setting(key, value)`:
1. unknown key → `ValueError("Unknown setting: …")`, nothing touched;
2. value fails the setting's sub-schema → `ValueError("Invalid value …")`,
   nothing touched;
3. otherwise the in-memory mapping is updated, then `save_config`
   re-validates the whole config: on success the file is replaced, on
   failure a `ValueError` propagates with the memory already mutated. -/
def set_setting (schemas : List SettingSchema) (st : Store) (key : String)
    (v : Value) : Store × Except SetError Unit :=
  match findSchema schemas key with
  | none => (st, .error .unknownSetting)
  | some s =>
      if validateValue s.vtype v then
        if validConfig schemas (settingsSet st.mem key v) then
          ({ mem := settingsSet st.mem key v,
             file := settingsSet st.mem key v }, .ok ())
        else
          ({ st with mem := settingsSet st.mem key v },
           .error .saveValidationFailed)
      else
        (st, .error .invalidValue)

/-- `ConfigManager.get_setting(key)`: `None` when not configured. -/
def get_setting (st : Store) (key : String) : Option Value :=
  settingsGet st.mem key

/-- `ConfigManager.has_setting(key)`. -/
def has_setting (st : Store) (key : String) : Bool :=
  hasKey st.mem key

/-! ## Category construction (`_build_categories_from_schema`)

The configurator walks `settings_schema.json`'s settings in insertion
order, skips any setting whose handler class or getter/setter pair is not
registered, and buckets the rest into `self.categories`, an
insertion-ordered dict from category name to an insertion-ordered dict of
settings.  `handler_map` and `handler_methods` are the literal tables
from `MacConfigurator.__init__`. -/

def handlerMapKeys : List String :=
  ["WiFiHandler", "AudioInputHandler", "AudioOutputHandler", "DockHandler",
   "FinderHandler", "SystemHandler", "StartupItemsHandler",
   "BackgroundAppsHandler", "SystemExtensionsHandler"]

def handlerMethodKeys : List String :=
  ["wifi_enabled", "audio_input_muted", "audio_output_volume",
   "dock_autohide", "dock_position", "finder_show_hidden",
   "finder_show_extensions", "screenshot_location", "startup_items_blocked",
   "background_app_permissions", "system_extension_preferences"]

/-- A schema entry survives `_build_categories_from_schema`'s
`if not handler or not get_method or not set_method: continue` check. -/
def resolvable (s : SettingSchema) : Bool :=
  handlerMapKeys.contains s.handler && handlerMethodKeys.contains s.key

/-- `if category not in categories: categories[category] = {}` — the
empty bucket is created for every setting's category, before the handler
check. -/
def ensureBucket : List (String × List SettingSchema) → String →
    List (String × List SettingSchema)
  | [], c => [(c, [])]
  | (c0, items) :: rest, c =>
      if c0 = c then (c0, items) :: rest
      else (c0, items) :: ensureBucket rest c

/-- `categories[category][setting_key] = setting_info`: append the setting
to its category's bucket (the bucket exists by then). -/
def appendToBucket : List (String × List SettingSchema) → String →
    SettingSchema → List (String × List SettingSchema)
  | [], c, s => [(c, [s])]
  | (c0, items) :: rest, c, s =>
      if c0 = c then (c0, items ++ [s]) :: rest
      else (c0, items) :: appendToBucket rest c s

/-- One iteration of `_build_categories_from_schema`'s loop: the category
bucket is created first (lines 941-943); only then is the handler checked
(lines 950-952), and an unresolvable setting is skipped with its (possibly
empty) bucket left in place. -/
def buildStep (cats : List (String × List SettingSchema))
    (s : SettingSchema) : List (String × List SettingSchema) :=
  if resolvable s then appendToBucket (ensureBucket cats s.category) s.category s
  else ensureBucket cats s.category

/-- `self.categories`: every schema setting contributes its category in
insertion order; only resolvable settings land in the buckets. -/
def buildCategories (schemas : List SettingSchema) :
    List (String × List SettingSchema) :=
  schemas.foldl buildStep []

/-- The order in which `apply_settings` (and the category-by-category
diff) visits settings: `for category_name, settings in
self.categories.items(): for setting_key, setting_info in
settings.items()`. -/
def visitOrder (schemas : List SettingSchema) : List SettingSchema :=
  (buildCategories schemas).flatMap Prod.snd

/-! ## The apply pass (`apply_settings`)

Inputs of the pass, all read through pure functions here: the configured
values (`config_manager.get_setting`), the observed values (each
setting's bound getter; `none` is Python `None`), the setters' outcomes,
and the admin snapshot `self.is_admin`. -/

/-- The three container-valued settings special-cased by `apply_settings`. -/
def containerKeys : List String :=
  ["startup_items_blocked", "background_app_permissions",
   "system_extension_preferences"]

/-- What the collection scan of `apply_settings` decides for one setting. -/
inductive ScanResult where
  | notConfigured
  | containerSkip
  | containerApply (v : Value)
  | inSync
  | blockedAdmin (v : Value)
  | needsApply (v : Value)
  deriving Repr, DecidableEq

/-- One iteration of the collection loop of `apply_settings`:
skip if unconfigured; for the three container settings, apply iff the
configured value is truthy (the observed value is never consulted and the
admin gate is never checked); otherwise compare configured with observed
and gate on `requires_admin and not self.is_admin`. -/
def scanSetting (cfgGet : String → Option Value)
    (observe : String → Option Value) (isAdmin : Bool)
    (s : SettingSchema) : ScanResult :=
  match cfgGet s.key with
  | none => .notConfigured
  | some v =>
      if containerKeys.contains s.key then
        if pyTruthy v then .containerApply v else .containerSkip
      else
        if !pyEqOpt (some v) (observe s.key) then
          if s.requires_admin && !isAdmin then .blockedAdmin v
          else .needsApply v
        else .inSync

/-- What one scanned setting contributes to `to_apply`. -/
def applySelector (cfgGet : String → Option Value)
    (observe : String → Option Value) (isAdmin : Bool)
    (s : SettingSchema) : Option (String × Value) :=
  match scanSetting cfgGet observe isAdmin s with
  | .containerApply v => some (s.key, v)
  | .needsApply v => some (s.key, v)
  | _ => none

/-- What one scanned setting contributes to `skipped_admin`. -/
def blockSelector (cfgGet : String → Option Value)
    (observe : String → Option Value) (isAdmin : Bool)
    (s : SettingSchema) : Option String :=
  match scanSetting cfgGet observe isAdmin s with
  | .blockedAdmin _ => some s.key
  | _ => none

/-- The `to_apply` list: settings the scan selected, in visit order. -/
def toApply (schemas : List SettingSchema) (cfgGet : String → Option Value)
    (observe : String → Option Value) (isAdmin : Bool) :
    List (String × Value) :=
  (visitOrder schemas).filterMap (applySelector cfgGet observe isAdmin)

/-- The per-setting decisions of one scan, in visit order: one entry per
visited setting, however each observation turned out. -/
def scanResults (schemas : List SettingSchema)
    (cfgGet : String → Option Value) (observe : String → Option Value)
    (isAdmin : Bool) : List ScanResult :=
  (visitOrder schemas).map (scanSetting cfgGet observe isAdmin)

/-- The `skipped_admin` list, in visit order. -/
def skippedAdmin (schemas : List SettingSchema)
    (cfgGet : String → Option Value) (observe : String → Option Value)
    (isAdmin : Bool) : List String :=
  (visitOrder schemas).filterMap (blockSelector cfgGet observe isAdmin)

/-- The apply loop: invoke each selected setting's setter once, record the
boolean outcome, and keep the running success/failure counters.  A failed
setter increments `fail_count` and the loop moves on. -/
def runApply (applyFn : String → Value → Bool) :
    List (String × Value) → List (String × Bool) × Nat × Nat
  | [] => ([], 0, 0)
  | (k, v) :: rest =>
      let ok := applyFn k v
      let (tr, s, f) := runApply applyFn rest
      ((k, ok) :: tr, if ok then s + 1 else s, if ok then f else f + 1)

/-- The whole of `apply_settings`, as data: the setter-invocation trace
with outcomes, the reported counters, and the skipped-admin settings. -/
structure ApplyOutcome where
  trace : List (String × Bool)
  successCount : Nat
  failCount : Nat
  skippedAdmin : List String
  deriving Repr, DecidableEq

def apply_settings (schemas : List SettingSchema)
    (cfgGet : String → Option Value) (observe : String → Option Value)
    (applyFn : String → Value → Bool) (isAdmin : Bool) : ApplyOutcome :=
  let r := runApply applyFn (toApply schemas cfgGet observe isAdmin)
  { trace := r.1, successCount := r.2.1, failCount := r.2.2,
    skippedAdmin := skippedAdmin schemas cfgGet observe isAdmin }

/-! ## Privilege snapshot (`__init__` / `is_admin`)

`MacConfigurator.__init__` runs `self.is_admin = is_admin()` once; every
later check reads `self.is_admin`.  We model the OS privilege state as a
function of time and the constructor as sampling it at construction
time. -/

structure Configurator where
  isAdmin : Bool
  schemas : List SettingSchema
  deriving Repr

def mkConfigurator (adminAt : Nat → Bool) (t₀ : Nat)
    (schemas : List SettingSchema) : Configurator :=
  { isAdmin := adminAt t₀, schemas := schemas }

/-- An apply pass run on a constructed configurator: every privilege
check inside reads the stored snapshot. -/
def Configurator.applyPass (c : Configurator)
    (cfgGet : String → Option Value) (observe : String → Option Value)
    (applyFn : String → Value → Bool) : ApplyOutcome :=
  apply_settings c.schemas cfgGet observe applyFn c.isAdmin

/-! ## An observe path (`WiFiHandler.get_current_state`)

`subprocess.run(..., check=True)` raises `CalledProcessError` on a
non-zero exit; the handler catches it and returns `None`.  On success it
returns whether `'On'` occurs in the command's stdout. -/

structure CmdResult where
  exitCode : Nat
  stdout : String
  deriving Repr, DecidableEq

/-- Python's `'On' in s`. -/
def strContains (hay needle : String) : Bool :=
  (hay.splitOn needle).length > 1

def get_current_state (run : List String → CmdResult)
    (interface : String) : Option Value :=
  let r := run ["networksetup", "-getairportpower", interface]
  if r.exitCode ≠ 0 then none
  else some (.bool (strContains r.stdout "On"))

/-- `AudioInputHandler.get_mute_state`: `None` on command failure or an
unparsable volume, else whether the input volume is 0. -/
def get_mute_state (run : List String → CmdResult) : Option Value :=
  let r := run ["osascript", "-e", "input volume of (get volume settings)"]
  if r.exitCode ≠ 0 then none
  else
    match r.stdout.trim.toInt? with
    | none => none
    | some n => some (.bool (n == 0))

/-- `AudioOutputHandler.get_volume`: `None` on command failure or an
unparsable volume, else the integer volume. -/
def get_volume (run : List String → CmdResult) : Option Value :=
  let r := run ["osascript", "-e", "output volume of (get volume settings)"]
  if r.exitCode ≠ 0 then none
  else
    match r.stdout.trim.toInt? with
    | none => none
    | some n => some (.int n)

/-- `DockHandler.get_autohide`: on command failure the handler returns
`False` — a legitimate-looking boolean, not `None`. -/
def get_autohide (run : List String → CmdResult) : Option Value :=
  let r := run ["defaults", "read", "com.apple.dock", "autohide"]
  if r.exitCode ≠ 0 then some (.bool false)
  else some (.bool (r.stdout.trim == "1"))

/-- `DockHandler.get_position`: on command failure the handler returns
the string `'bottom'`, not `None`. -/
def get_position (run : List String → CmdResult) : Option Value :=
  let r := run ["defaults", "read", "com.apple.dock", "orientation"]
  if r.exitCode ≠ 0 then some (.str "bottom")
  else some (.str r.stdout.trim)

/-- `FinderHandler.get_show_hidden_files`: `False` on command failure. -/
def get_show_hidden_files (run : List String → CmdResult) : Option Value :=
  let r := run ["defaults", "read", "com.apple.finder", "AppleShowAllFiles"]
  if r.exitCode ≠ 0 then some (.bool false)
  else some (.bool (r.stdout.trim.toUpper == "TRUE"))

/-- `FinderHandler.get_show_extensions`: `False` on command failure. -/
def get_show_extensions (run : List String → CmdResult) : Option Value :=
  let r := run ["defaults", "read", "NSGlobalDomain", "AppleShowAllExtensions"]
  if r.exitCode ≠ 0 then some (.bool false)
  else some (.bool (r.stdout.trim == "1"))

/-- `SystemHandler.get_screenshot_location`: on command failure the
handler returns the default location `Path.home() / 'Desktop'` (passed in
as `homeDesktop`), not `None`. -/
def get_screenshot_location (run : List String → CmdResult)
    (homeDesktop : String) : Option Value :=
  let r := run ["defaults", "read", "com.apple.screencapture", "location"]
  if r.exitCode ≠ 0 then some (.str homeDesktop)
  else some (.str r.stdout.trim)

/-! ## Diff display status (`_manage_category_settings`)

The status column: `○` when not configured, `✓` when
`configured_value == current_value`, `⚠` otherwise. -/

inductive DisplayStatus where
  | notConfigured
  | inSync
  | differs
  deriving Repr, DecidableEq

def displayStatus (st : Store) (key : String)
    (observed : Option Value) : DisplayStatus :=
  if !has_setting st key then .notConfigured
  else if pyEqOpt (get_setting st key) observed then .inSync
  else .differs

/-! ## The `--apply` CLI mode (`main`)

In `--apply` mode, `main` picks the named (or first available)
configuration, runs `apply_settings`, and falls off the end of the
function: the process exits 0 whatever the failure count, after
`apply_settings` has blocked on its final `console.input("Press Enter to
continue...")`.  `sys.exit(1)` happens only when no configuration
exists. -/

structure ProcResult where
  exitCode : Nat
  /-- Number of blocking interactive reads performed. -/
  inputReads : Nat
  outcome : Option ApplyOutcome
  deriving Repr, DecidableEq

def mainApply (argName : Option String) (availableConfigs : List String)
    (schemas : List SettingSchema) (cfgGet : String → Option Value)
    (observe : String → Option Value) (applyFn : String → Value → Bool)
    (isAdmin : Bool) : ProcResult :=
  let run : String → ProcResult := fun _ =>
    let o := apply_settings schemas cfgGet observe applyFn isAdmin
    { exitCode := 0, inputReads := 1, outcome := some o }
  match argName with
  | some n => run n
  | none =>
      match availableConfigs with
      | [] => { exitCode := 1, inputReads := 0, outcome := none }
      | c :: _ => run c

/-- The categories of `self.categories` in insertion order: each category
appears when the first schema setting carrying it is reached — the bucket
is created before the handler check, so unresolvable settings count too. -/
def categoryOrder (schemas : List SettingSchema) : List String :=
  schemas.foldl
    (fun acc s => if s.category ∈ acc then acc else acc ++ [s.category]) []

/-- The distinct categories of a setting list, in first-appearance order
(characterisation device for `buildCategories`; identical to
`categoryOrder`). -/
def keysF (l : List SettingSchema) : List String :=
  l.foldl (fun acc s => if s.category ∈ acc then acc else acc ++ [s.category]) []

/-- The category buckets written out directly: one bucket per category in
first-appearance order among all settings, holding that category's
resolvable settings in list order (characterisation device for
`buildCategories`). -/
def target (l : List SettingSchema) : List (String × List SettingSchema) :=
  (keysF l).map
    (fun c => (c, (l.filter resolvable).filter (fun s => s.category = c)))

/-! ## Concrete fixtures (schema entries as `settings_schema.json` provides
them, used to instantiate hypotheses) -/

def volSchema : SettingSchema :=
  { key := "audio_output_volume", title := "Output Volume",
    category := "Audio", handler := "AudioOutputHandler",
    vtype := .integer (some 0) (some 100), requires_admin := false }

def wifiSchema : SettingSchema :=
  { key := "wifi_enabled", title := "WiFi", category := "Network",
    handler := "WiFiHandler", vtype := .boolean, requires_admin := true }

def dockSchema : SettingSchema :=
  { key := "dock_autohide", title := "Dock Autohide", category := "Dock",
    handler := "DockHandler", vtype := .boolean, requires_admin := false }

def startupSchema : SettingSchema :=
  { key := "startup_items_blocked", title := "Blocked Startup Items",
    category := "Startup", handler := "StartupItemsHandler",
    vtype := .array, requires_admin := false }

def bgPermsSchema : SettingSchema :=
  { key := "background_app_permissions", title := "Background Permissions",
    category := "Background Apps", handler := "BackgroundAppsHandler",
    vtype := .object, requires_admin := false }

/-- A configured profile mapping `wifi_enabled` to `true`. -/
def wifiCfg : String → Option Value := fun k =>
  if k = "wifi_enabled" then some (.bool true) else none

/-- A non-empty background-permissions mapping, used both as configured
and as observed value. -/
def bgCfg : String → Option Value := fun k =>
  if k = "background_app_permissions" then
    some (.dict [("com.example.app", true)])
  else none

/-- A configured profile mapping `startup_items_blocked` to the empty
list. -/
def emptyStartupCfg : String → Option Value := fun k =>
  if k = "startup_items_blocked" then some (.list []) else none

/-- A wifi observation differing from the configured `true`. -/
def wifiObsOff : String → Option Value := fun k =>
  if k = "wifi_enabled" then some (.bool false) else none

/-- A configured profile mapping `dock_autohide` to `false`. -/
def dockCfgFalse : String → Option Value := fun k =>
  if k = "dock_autohide" then some (.bool false) else none

/-- An external command runner whose command always exits non-zero. -/
def failingRun : List String → CmdResult := fun _ =>
  { exitCode := 1, stdout := "Wi-Fi Power (en0): On" }

/-- A schema whose categories interleave: `wifi_enabled` (Network),
`dock_autohide` (Dock), then `audio_output_volume` again under Network. -/
def volNetSchema : SettingSchema :=
  { key := "audio_output_volume", title := "Output Volume",
    category := "Network", handler := "AudioOutputHandler",
    vtype := .integer (some 0) (some 100), requires_admin := false }

/-- A profile in which every setting is configured. -/
def allConfigured : String → Option Value := fun _ => some (.bool true)

/-! ## Helper lemmas -/

lemma runApply_cons (f : String → Value → Bool) (k : String) (v : Value)
    (rest : List (String × Value)) :
    runApply f ((k, v) :: rest) =
      ((k, f k v) :: (runApply f rest).1,
       if f k v then (runApply f rest).2.1 + 1 else (runApply f rest).2.1,
       if f k v then (runApply f rest).2.2 else (runApply f rest).2.2 + 1) := by
  rcases hr : runApply f rest with ⟨tr, s, fc⟩
  simp [runApply, hr]

/-- The apply loop, characterised: the invocation trace maps each selected
item to its key and its setter's outcome, and the counters count the true
and the false outcomes. -/
lemma runApply_spec (f : String → Value → Bool)
    (items : List (String × Value)) :
    (runApply f items).1 = items.map (fun p => (p.1, f p.1 p.2)) ∧
    (runApply f items).2.1 = ((runApply f items).1.filter (fun o => o.2)).length ∧
    (runApply f items).2.2 = ((runApply f items).1.filter (fun o => !o.2)).length := by
  induction items with
  | nil => simp [runApply]
  | cons p rest ih =>
      obtain ⟨k, v⟩ := p
      obtain ⟨ih1, ih2, ih3⟩ := ih
      rw [runApply_cons]
      refine ⟨by simp [ih1], ?_, ?_⟩
      · cases hfk : f k v <;> simp [hfk, ih2, List.filter_cons]
      · cases hfk : f k v <;> simp [hfk, ih3, List.filter_cons]

/-- Successes plus failures account for every processed item. -/
lemma filter_length_sum (l : List (String × Bool)) :
    (l.filter (fun o => o.2)).length + (l.filter (fun o => !o.2)).length
      = l.length := by
  induction l with
  | nil => simp
  | cons a l ih =>
      cases ha : a.2 <;> simp [List.filter_cons, ha] <;> omega

lemma applySelector_eq_some (cfgGet : String → Option Value)
    (observe : String → Option Value) (isAdmin : Bool) (s : SettingSchema)
    (p : String × Value) :
    applySelector cfgGet observe isAdmin s = some p ↔
      ∃ v, p = (s.key, v) ∧
        (scanSetting cfgGet observe isAdmin s = .containerApply v ∨
         scanSetting cfgGet observe isAdmin s = .needsApply v) := by
  unfold applySelector
  cases hscan : scanSetting cfgGet observe isAdmin s <;>
    simp [hscan] <;> exact eq_comm

lemma blockSelector_eq_some (cfgGet : String → Option Value)
    (observe : String → Option Value) (isAdmin : Bool) (s : SettingSchema)
    (k : String) :
    blockSelector cfgGet observe isAdmin s = some k ↔
      k = s.key ∧ ∃ v, scanSetting cfgGet observe isAdmin s = .blockedAdmin v := by
  unfold blockSelector
  cases hscan : scanSetting cfgGet observe isAdmin s <;> simp [hscan]
  exact comm

lemma trace_keys (schemas : List SettingSchema)
    (cfgGet : String → Option Value) (observe : String → Option Value)
    (f : String → Value → Bool) (isAdmin : Bool) :
    (apply_settings schemas cfgGet observe f isAdmin).trace.map Prod.fst =
      (toApply schemas cfgGet observe isAdmin).map Prod.fst := by
  have h := (runApply_spec f (toApply schemas cfgGet observe isAdmin)).1
  simp only [apply_settings, h, List.map_map]
  rfl

lemma mem_toApply_key (schemas : List SettingSchema)
    (cfgGet : String → Option Value) (observe : String → Option Value)
    (isAdmin : Bool) (k : String) :
    k ∈ (toApply schemas cfgGet observe isAdmin).map Prod.fst ↔
      ∃ s ∈ visitOrder schemas, s.key = k ∧
        ∃ v, scanSetting cfgGet observe isAdmin s = .containerApply v ∨
             scanSetting cfgGet observe isAdmin s = .needsApply v := by
  unfold toApply
  constructor
  · intro h
    obtain ⟨p, hp, hpk⟩ := List.mem_map.mp h
    obtain ⟨s, hs, hsel⟩ := List.mem_filterMap.mp hp
    obtain ⟨v, rfl, hv⟩ := (applySelector_eq_some cfgGet observe isAdmin s p).mp hsel
    exact ⟨s, hs, hpk, v, hv⟩
  · rintro ⟨s, hs, rfl, v, hv⟩
    refine List.mem_map.mpr ⟨(s.key, v), List.mem_filterMap.mpr ⟨s, hs, ?_⟩, rfl⟩
    exact (applySelector_eq_some cfgGet observe isAdmin s _).mpr ⟨v, rfl, hv⟩

lemma mem_skippedAdmin (schemas : List SettingSchema)
    (cfgGet : String → Option Value) (observe : String → Option Value)
    (isAdmin : Bool) (k : String) :
    k ∈ skippedAdmin schemas cfgGet observe isAdmin ↔
      ∃ s ∈ visitOrder schemas, s.key = k ∧
        ∃ v, scanSetting cfgGet observe isAdmin s = .blockedAdmin v := by
  unfold skippedAdmin
  constructor
  · intro h
    obtain ⟨s, hs, hsel⟩ := List.mem_filterMap.mp h
    obtain ⟨hk, v, hv⟩ := (blockSelector_eq_some cfgGet observe isAdmin s k).mp hsel
    exact ⟨s, hs, hk.symm, v, hv⟩
  · rintro ⟨s, hs, rfl, v, hv⟩
    refine List.mem_filterMap.mpr ⟨s, hs, ?_⟩
    exact (blockSelector_eq_some cfgGet observe isAdmin s _).mpr ⟨rfl, v, hv⟩

lemma settingsGet_settingsSet_self (cfg : Settings) (key : String) (v : Value) :
    settingsGet (settingsSet cfg key v) key = some v := by
  induction cfg with
  | nil => simp [settingsSet, settingsGet]
  | cons p rest ih =>
      by_cases h : p.1 = key
      · simp [settingsSet, settingsGet, h]
      · simp [settingsSet, settingsGet, h, ih]

lemma validConfig_settingsSet (schemas : List SettingSchema) (cfg : Settings)
    (key : String) (v : Value) (s : SettingSchema)
    (hf : findSchema schemas key = some s)
    (hv : validateValue s.vtype v = true)
    (hc : validConfig schemas cfg = true) :
    validConfig schemas (settingsSet cfg key v) = true := by
  induction cfg with
  | nil => simp [settingsSet, validConfig, entryValid, hf, hv]
  | cons p rest ih =>
      rw [validConfig, List.all_cons, Bool.and_eq_true] at hc
      by_cases h : p.1 = key
      · rw [settingsSet]
        simp only [h, if_true]
        rw [validConfig, List.all_cons, Bool.and_eq_true]
        exact ⟨by simp [entryValid, hf, hv], hc.2⟩
      · rw [settingsSet]
        simp only [h, if_false]
        rw [validConfig, List.all_cons, Bool.and_eq_true]
        exact ⟨hc.1, ih hc.2⟩

lemma pyEqOpt_some_none (v : Value) : pyEqOpt (some v) none = false := rfl

lemma hasKey_settingsGet (cfg : Settings) (key : String)
    (h : hasKey cfg key = true) : ∃ v, settingsGet cfg key = some v := by
  induction cfg with
  | nil => simp [hasKey] at h
  | cons p rest ih =>
      rw [hasKey, Bool.or_eq_true] at h
      by_cases hp : p.1 = key
      · exact ⟨p.2, by simp [settingsGet, hp]⟩
      · rcases h with h | h
        · simp [hp] at h
        · obtain ⟨v, hv⟩ := ih h
          exact ⟨v, by simp [settingsGet, hp, hv]⟩

lemma keysF_mem_aux (l : List SettingSchema) :
    ∀ (acc : List String) (c : String),
      (c ∈ l.foldl
          (fun acc s => if s.category ∈ acc then acc else acc ++ [s.category])
          acc ↔
        c ∈ acc ∨ c ∈ l.map (fun s => s.category)) := by
  induction l with
  | nil => intro acc c; simp
  | cons s l ih =>
      intro acc c
      rw [List.foldl_cons, ih]
      by_cases hs : s.category ∈ acc
      · rw [if_pos hs]
        simp only [List.map_cons, List.mem_cons]
        constructor
        · rintro (h | h)
          · exact Or.inl h
          · exact Or.inr (Or.inr h)
        · rintro (h | h | h)
          · exact Or.inl h
          · exact Or.inl (h ▸ hs)
          · exact Or.inr h
      · rw [if_neg hs]
        simp [List.mem_append, or_assoc]

lemma keysF_mem (l : List SettingSchema) (c : String) :
    c ∈ keysF l ↔ c ∈ l.map (fun s => s.category) := by
  simpa using keysF_mem_aux l [] c

lemma keysF_nodup_aux (l : List SettingSchema) :
    ∀ acc : List String, acc.Nodup →
      (l.foldl
        (fun acc s => if s.category ∈ acc then acc else acc ++ [s.category])
        acc).Nodup := by
  induction l with
  | nil => intro acc h; simpa
  | cons s l ih =>
      intro acc h
      rw [List.foldl_cons]
      apply ih
      by_cases hs : s.category ∈ acc
      · simpa [hs]
      · rw [if_neg hs]
        simp [List.nodup_append, h, hs]

lemma keysF_nodup (l : List SettingSchema) : (keysF l).Nodup :=
  keysF_nodup_aux l [] List.nodup_nil

lemma keysF_append_single (l : List SettingSchema) (s : SettingSchema) :
    keysF (l ++ [s]) =
      if s.category ∈ keysF l then keysF l else keysF l ++ [s.category] := by
  unfold keysF
  rw [List.foldl_append]
  rfl

lemma ensureBucket_map_mem (cs : List String)
    (F : String → List SettingSchema) (c : String) (hmem : c ∈ cs) :
    ensureBucket (cs.map (fun x => (x, F x))) c = cs.map (fun x => (x, F x)) := by
  induction cs with
  | nil => simp at hmem
  | cons c0 cs ih =>
      rw [List.map_cons, ensureBucket]
      by_cases h0 : c0 = c
      · rw [if_pos h0]
      · rw [if_neg h0]
        have hc : c ∈ cs := by
          rcases List.mem_cons.mp hmem with h | h
          · exact absurd h.symm h0
          · exact h
        rw [ih hc]

lemma ensureBucket_map_not_mem (cs : List String)
    (F : String → List SettingSchema) (c : String) (hmem : c ∉ cs) :
    ensureBucket (cs.map (fun x => (x, F x))) c
      = cs.map (fun x => (x, F x)) ++ [(c, [])] := by
  induction cs with
  | nil => simp [ensureBucket]
  | cons c0 cs ih =>
      have h0 : ¬(c0 = c) := fun h => hmem (List.mem_cons.mpr (Or.inl h.symm))
      rw [List.map_cons, ensureBucket, if_neg h0,
        ih (fun h => hmem (List.mem_cons_of_mem _ h))]
      simp

lemma appendToBucket_map (cs : List String)
    (F : String → List SettingSchema) (c : String) (s : SettingSchema)
    (hnd : cs.Nodup) (hmem : c ∈ cs) :
    appendToBucket (cs.map (fun x => (x, F x))) c s
      = cs.map (fun x => (x, if x = c then F x ++ [s] else F x)) := by
  induction cs with
  | nil => simp at hmem
  | cons c0 cs ih =>
      have hcn : c0 ∉ cs := (List.nodup_cons.mp hnd).1
      have hnd2 : cs.Nodup := (List.nodup_cons.mp hnd).2
      rw [List.map_cons, appendToBucket, List.map_cons]
      by_cases h0 : c0 = c
      · subst h0
        rw [if_pos rfl, if_pos rfl]
        congr 1
        apply List.map_congr_left
        intro a ha
        have hne : ¬(a = c0) := fun h => hcn (h ▸ ha)
        simp [hne]
      · rw [if_neg h0, if_neg h0]
        have hc : c ∈ cs := by
          rcases List.mem_cons.mp hmem with h | h
          · exact absurd h.symm h0
          · exact h
        rw [ih hnd2 hc]

lemma appendToBucket_append (xs : List (String × List SettingSchema))
    (c : String) (items : List SettingSchema) (s : SettingSchema)
    (hkeys : ∀ p ∈ xs, p.1 ≠ c) :
    appendToBucket (xs ++ [(c, items)]) c s = xs ++ [(c, items ++ [s])] := by
  induction xs with
  | nil => simp [appendToBucket]
  | cons p xs ih =>
      obtain ⟨c0, items0⟩ := p
      have h0 : ¬(c0 = c) := hkeys (c0, items0) (List.mem_cons_self _ _)
      rw [List.cons_append, appendToBucket, if_neg h0,
        ih (fun q hq => hkeys q (List.mem_cons_of_mem _ hq))]
      simp

lemma target_append_single (l : List SettingSchema) (s : SettingSchema) :
    target (l ++ [s]) = buildStep (target l) s := by
  unfold target buildStep
  rw [keysF_append_single]
  by_cases hmem : s.category ∈ keysF l
  · rw [if_pos hmem, ensureBucket_map_mem _ _ _ hmem]
    by_cases hres : resolvable s = true
    · rw [if_pos hres, appendToBucket_map _ _ _ s (keysF_nodup l) hmem]
      apply List.map_congr_left
      intro c hc
      by_cases hcs : c = s.category
      · subst hcs
        simp [List.filter_append, hres]
      · have hne : s.category ≠ c := fun h => hcs h.symm
        simp [List.filter_append, hres, hne, hcs]
    · rw [if_neg hres]
      apply List.map_congr_left
      intro c hc
      simp [List.filter_append, hres]
  · have hkeys : ∀ p ∈ (keysF l).map
        (fun c => (c, (l.filter resolvable).filter
          (fun t => t.category = c))), p.1 ≠ s.category := by
      intro p hp
      obtain ⟨x, hx, rfl⟩ := List.mem_map.mp hp
      exact fun h => hmem (h ▸ hx)
    rw [if_neg hmem, ensureBucket_map_not_mem _ _ _ hmem, List.map_append]
    by_cases hres : resolvable s = true
    · rw [if_pos hres, appendToBucket_append _ _ _ s hkeys]
      congr 1
      · apply List.map_congr_left
        intro c hc
        have hne : s.category ≠ c := fun h => hmem (h ▸ hc)
        simp [List.filter_append, hres, hne]
      · simp [List.filter_append, hres]
        intro a ha heq
        exact absurd ((keysF_mem l s.category).mpr
          (List.mem_map.mpr ⟨a, ha, by simpa using heq⟩)) hmem
    · rw [if_neg hres]
      congr 1
      · apply List.map_congr_left
        intro c hc
        simp [List.filter_append, hres]
      · simp [List.filter_append, hres]
        intro a ha heq
        exact absurd ((keysF_mem l s.category).mpr
          (List.mem_map.mpr ⟨a, ha, by simpa using heq⟩)) hmem

lemma foldl_buildStep_target (rest : List SettingSchema) :
    ∀ l : List SettingSchema,
      List.foldl buildStep (target l) rest = target (l ++ rest) := by
  induction rest with
  | nil => intro l; simp
  | cons s rest ih =>
      intro l
      rw [List.foldl_cons, ← target_append_single, ih (l ++ [s])]
      simp

lemma buildCategories_eq_target (schemas : List SettingSchema) :
    buildCategories schemas = target schemas := by
  have h := foldl_buildStep_target schemas []
  simpa [buildCategories, target, keysF] using h

lemma flatMap_snd_map {α β : Type} (ks : List α) (F : α → List β) :
    ((ks.map (fun c => (c, F c))).flatMap Prod.snd) = ks.flatMap F := by
  induction ks with
  | nil => rfl
  | cons c ks ih => simp [ih]

/-- The visit order of the pass, written out: categories in
first-appearance order, each category's resolvable settings in schema
order. -/
lemma visitOrder_grouped (schemas : List SettingSchema) :
    visitOrder schemas = (categoryOrder schemas).flatMap
      (fun c => (schemas.filter resolvable).filter (fun s => s.category = c)) := by
  unfold visitOrder
  rw [buildCategories_eq_target]
  unfold target
  rw [flatMap_snd_map]
  rfl

lemma filterMap_map_sublist {α β : Type} (f : α → Option β) (g : α → β)
    (h : ∀ a b, f a = some b → g a = b) :
    ∀ l : List α, List.Sublist (l.filterMap f) (l.map g) := by
  intro l
  induction l with
  | nil => simp
  | cons a l ih =>
      rw [List.filterMap_cons, List.map_cons]
      cases hf : f a with
      | none => exact ih.cons _
      | some b =>
          rw [← h a b hf]
          exact ih.cons₂ _

/-! ## Claims -/

/-- Claim C1: during an apply pass, a failure of one setting's apply never
aborts application of the remaining settings.  For every sequence of
to-apply items, the loop invokes each item's setter exactly once in
sequence (the trace is exactly the item list, key by key, paired with the
setter's outcome), records each outcome as success or failure, continues
past every failure (the trace has an entry for every item), and reports
the success and failure counts over all of them; `apply_settings` runs
precisely this loop on its `to_apply` list. -/
theorem apply_pass_resilient_to_failures (f : String → Value → Bool)
    (items : List (String × Value)) :
    (runApply f items).1 = items.map (fun p => (p.1, f p.1 p.2)) ∧
    (runApply f items).1.length = items.length ∧
    (runApply f items).2.1 = ((runApply f items).1.filter (fun o => o.2)).length ∧
    (runApply f items).2.2 = ((runApply f items).1.filter (fun o => !o.2)).length ∧
    (runApply f items).2.1 + (runApply f items).2.2 = items.length ∧
    (∀ schemas cfgGet observe isAdmin,
      (apply_settings schemas cfgGet observe f isAdmin).trace =
        (runApply f (toApply schemas cfgGet observe isAdmin)).1 ∧
      (apply_settings schemas cfgGet observe f isAdmin).successCount =
        (runApply f (toApply schemas cfgGet observe isAdmin)).2.1 ∧
      (apply_settings schemas cfgGet observe f isAdmin).failCount =
        (runApply f (toApply schemas cfgGet observe isAdmin)).2.2) := by
  obtain ⟨h1, h2, h3⟩ := runApply_spec f items
  refine ⟨h1, by rw [h1]; simp, h2, h3, ?_, ?_⟩
  · rw [h2, h3, filter_length_sum, h1, List.length_map]
  · intro schemas cfgGet observe isAdmin
    exact ⟨rfl, rfl, rfl⟩

/-- Claim C4: setting a profile value with an unknown setting id or an
invalid value fails with an error and leaves the profile's prior state —
the in-memory settings mapping and the persisted file, including absence
of the key — unchanged. -/
theorem set_setting_invalid_leaves_store_unchanged
    (schemas : List SettingSchema) (st : Store) (key : String) (v : Value)
    (h : ((findSchema schemas key).all fun s => !validateValue s.vtype v) = true) :
    (set_setting schemas st key v).1 = st ∧
    ((set_setting schemas st key v).2 = .error .unknownSetting ∨
     (set_setting schemas st key v).2 = .error .invalidValue) := by
  rcases hf : findSchema schemas key with _ | s
  · simp [set_setting, hf]
  · rw [hf] at h
    simp only [Option.all_some, Bool.not_eq_true'] at h
    simp [set_setting, hf, h]

/-- Witness for C4: `audio_output_volume` is bounded by 100, so 200 is
rejected and an untouched empty store stays empty. -/
theorem set_setting_invalid_witness :
    ((findSchema [volSchema] "audio_output_volume").all
        fun s => !validateValue s.vtype (.int 200)) = true ∧
    ((set_setting [volSchema] ⟨[], []⟩ "audio_output_volume" (.int 200)).1
        = (⟨[], []⟩ : Store) ∧
      ((set_setting [volSchema] ⟨[], []⟩ "audio_output_volume" (.int 200)).2
          = .error .unknownSetting ∨
       (set_setting [volSchema] ⟨[], []⟩ "audio_output_volume" (.int 200)).2
          = .error .invalidValue)) :=
  ⟨by decide,
   set_setting_invalid_leaves_store_unchanged [volSchema] ⟨[], []⟩
     "audio_output_volume" (.int 200) (by decide)⟩

/-- Claim C8: for every `(id, value)` pair that passes schema validation,
setting the value and then getting it returns the same value; moreover,
when the prior config is itself schema-valid, the write succeeds and the
updated mapping is what gets persisted. -/
theorem set_then_get_roundtrip (schemas : List SettingSchema) (st : Store)
    (key : String) (v : Value) (s : SettingSchema)
    (hf : findSchema schemas key = some s)
    (hv : validateValue s.vtype v = true) :
    get_setting (set_setting schemas st key v).1 key = some v ∧
    (validConfig schemas st.mem = true →
      (set_setting schemas st key v).2 = .ok () ∧
      (set_setting schemas st key v).1.file = settingsSet st.mem key v) := by
  unfold set_setting
  rw [hf]
  simp only [hv, if_true]
  by_cases hvc : validConfig schemas (settingsSet st.mem key v) = true
  · simp only [hvc, if_true]
    exact ⟨settingsGet_settingsSet_self st.mem key v, fun _ => ⟨trivial, trivial⟩⟩
  · simp only [hvc, if_false]
    exact ⟨settingsGet_settingsSet_self st.mem key v,
      fun hc => absurd (validConfig_settingsSet schemas st.mem key v s hf hv hc) hvc⟩

/-- Counterexample to C2 as stated: for the container-valued setting
`background_app_permissions`, a configured non-empty mapping that is
exactly equal to the observed mapping is nonetheless selected for apply
and its setter is invoked — desired = observed does not yield InSync for
container settings. -/
theorem insync_precedence_fails_for_containers :
    pyEqOpt (bgCfg "background_app_permissions")
        (bgCfg "background_app_permissions") = true ∧
    "background_app_permissions" ∈
      (toApply [bgPermsSchema] bgCfg bgCfg false).map Prod.fst ∧
    (apply_settings [bgPermsSchema] bgCfg bgCfg (fun _ _ => true) false).trace
      = [("background_app_permissions", true)] := by decide

/-- Claim C2 (amended to non-container settings): for every setting other
than the three container-valued ones, with a configured desired value, if
desired equals observed it is classified InSync — it is neither selected
for apply nor reported blocked — even when the setting requires privilege
and the privilege flag is false; and it is classified BlockedByPrivilege
exactly when desired differs from observed, `requires_admin` is true and
the privilege flag is false. -/
theorem insync_precedence_noncontainer
    (schemas : List SettingSchema) (cfgGet observe : String → Option Value)
    (isAdmin : Bool) (s : SettingSchema) (v : Value)
    (hk : containerKeys.contains s.key = false)
    (hc : cfgGet s.key = some v)
    (huniq : ∀ t ∈ visitOrder schemas, t.key = s.key → t = s) :
    (pyEqOpt (some v) (observe s.key) = true →
      scanSetting cfgGet observe isAdmin s = .inSync ∧
      s.key ∉ (toApply schemas cfgGet observe isAdmin).map Prod.fst ∧
      s.key ∉ skippedAdmin schemas cfgGet observe isAdmin) ∧
    (scanSetting cfgGet observe isAdmin s = .blockedAdmin v ↔
      (pyEqOpt (some v) (observe s.key) = false ∧
       s.requires_admin = true ∧ isAdmin = false)) := by
  have hk' : s.key ∉ containerKeys := by simpa using hk
  constructor
  · intro heq
    have hs : scanSetting cfgGet observe isAdmin s = .inSync := by
      unfold scanSetting
      rw [hc]
      simp [hk', heq]
    refine ⟨hs, ?_, ?_⟩
    · intro hmem
      obtain ⟨t, ht, htk, w, hw⟩ :=
        (mem_toApply_key schemas cfgGet observe isAdmin s.key).mp hmem
      have hts := huniq t ht htk
      subst hts
      rcases hw with hw | hw <;> rw [hs] at hw <;> cases hw
    · intro hmem
      obtain ⟨t, ht, htk, w, hw⟩ :=
        (mem_skippedAdmin schemas cfgGet observe isAdmin s.key).mp hmem
      have hts := huniq t ht htk
      subst hts
      rw [hs] at hw
      cases hw
  · unfold scanSetting
    rw [hc]
    by_cases he : pyEqOpt (some v) (observe s.key) = true <;>
      by_cases hra : s.requires_admin = true <;>
      by_cases hia : isAdmin = true <;>
      simp_all [hk]

/-- Witness for amended C2: `wifi_enabled` requires privilege, the flag
is false, and the configured value equals the observed value: the setting
is InSync, not applied and not blocked. -/
theorem insync_precedence_noncontainer_witness :
    (containerKeys.contains wifiSchema.key = false ∧
     wifiCfg wifiSchema.key = some (.bool true) ∧
     (∀ t ∈ visitOrder [wifiSchema], t.key = wifiSchema.key → t = wifiSchema)) ∧
    ((pyEqOpt (some (.bool true)) (wifiCfg wifiSchema.key) = true →
        scanSetting wifiCfg wifiCfg false wifiSchema = .inSync ∧
        wifiSchema.key ∉
          (toApply [wifiSchema] wifiCfg wifiCfg false).map Prod.fst ∧
        wifiSchema.key ∉ skippedAdmin [wifiSchema] wifiCfg wifiCfg false) ∧
     (scanSetting wifiCfg wifiCfg false wifiSchema = .blockedAdmin (.bool true) ↔
        (pyEqOpt (some (.bool true)) (wifiCfg wifiSchema.key) = false ∧
         wifiSchema.requires_admin = true ∧ false = false))) :=
  ⟨⟨by decide, by decide, by decide⟩,
   insync_precedence_noncontainer [wifiSchema] wifiCfg wifiCfg false
     wifiSchema (.bool true) (by decide) (by decide) (by decide)⟩

/-- Claim C5: an Unknown observed value (the getter returning `None`)
never compares equal to any configured desired value: such a setting is
never shown InSync in the diff display, and the apply scan never
classifies it InSync. -/
theorem unknown_observed_never_insync
    (st : Store) (key : String) (cfgGet observe : String → Option Value)
    (isAdmin : Bool) (s : SettingSchema) (v : Value)
    (hdisp : has_setting st key = true)
    (hc : cfgGet s.key = some v)
    (hobs : observe s.key = none) :
    displayStatus st key none ≠ .inSync ∧
    scanSetting cfgGet observe isAdmin s ≠ .inSync := by
  constructor
  · obtain ⟨w, hw⟩ := hasKey_settingsGet st.mem key hdisp
    have hd : hasKey st.mem key = true := hdisp
    simp [displayStatus, get_setting, has_setting, hd, hw, pyEqOpt_some_none]
  · unfold scanSetting
    rw [hc, hobs]
    by_cases hk : containerKeys.contains s.key = true
    · have hk' : s.key ∈ containerKeys := by simpa using hk
      by_cases ht : pyTruthy v = true <;> simp [hk', ht]
    · have hk' : s.key ∉ containerKeys := by simpa using hk
      by_cases hra : s.requires_admin = true <;>
        by_cases hia : isAdmin = true <;>
        simp [hk', hra, hia, pyEqOpt_some_none]

/-- Witness for C5: `wifi_enabled` configured `true`, observed `None`:
the display shows a difference and the scan does not classify InSync. -/
theorem unknown_observed_never_insync_witness :
    (has_setting ⟨[("wifi_enabled", .bool true)],
        [("wifi_enabled", .bool true)]⟩ "wifi_enabled" = true ∧
     wifiCfg wifiSchema.key = some (.bool true) ∧
     (fun _ : String => (none : Option Value)) wifiSchema.key = none) ∧
    (displayStatus ⟨[("wifi_enabled", .bool true)],
        [("wifi_enabled", .bool true)]⟩ "wifi_enabled" none ≠ .inSync ∧
     scanSetting wifiCfg (fun _ => none) true wifiSchema ≠ .inSync) :=
  ⟨⟨by decide, by decide, rfl⟩,
   unknown_observed_never_insync ⟨[("wifi_enabled", .bool true)],
       [("wifi_enabled", .bool true)]⟩ "wifi_enabled" wifiCfg
     (fun _ => none) true wifiSchema (.bool true) (by decide) (by decide) rfl⟩

/-- Counterexample to C6 as stated: `dock_autohide`'s getter, when its
external command fails, returns the legitimate-looking value `False`
rather than the Unknown marker — and a profile configuring
`dock_autohide = false` is then classified InSync against that failed
observation instead of Unknown-never-equal. -/
theorem dock_observe_failure_not_unknown :
    (failingRun ["defaults", "read", "com.apple.dock", "autohide"]).exitCode
      ≠ 0 ∧
    get_autohide failingRun = some (.bool false) ∧
    get_autohide failingRun ≠ none ∧
    scanSetting dockCfgFalse (fun _ => get_autohide failingRun) true dockSchema
      = .inSync := by decide

/-- Claim C6 (amended): when the underlying external commands fail, the
WiFi and audio getters downgrade the failure to the Unknown observed
value (`None`), but the Dock, Finder and screenshot-location getters
return typed fallback values (`False`, `'bottom'`, `False`, `False`, the
default Desktop path) instead of Unknown.  In every case the failure is
contained at single-setting granularity: the scan still decides every
visited setting, and each setting's decision depends only on the
observation at its own key, so a failing getter never aborts the pass or
changes how the remaining settings are processed. -/
theorem observe_failure_contained
    (run : List String → CmdResult) (iface homeDesktop : String)
    (h : ∀ cmd, (run cmd).exitCode ≠ 0) :
    get_current_state run iface = none ∧
    get_mute_state run = none ∧
    get_volume run = none ∧
    get_autohide run = some (.bool false) ∧
    get_position run = some (.str "bottom") ∧
    get_show_hidden_files run = some (.bool false) ∧
    get_show_extensions run = some (.bool false) ∧
    get_screenshot_location run homeDesktop = some (.str homeDesktop) ∧
    (∀ schemas cfgGet observe isAdmin,
      (scanResults schemas cfgGet observe isAdmin).length =
        (visitOrder schemas).length) ∧
    (∀ (cfgGet obs1 obs2 : String → Option Value) (isAdmin : Bool)
        (s : SettingSchema),
      obs1 s.key = obs2 s.key →
      scanSetting cfgGet obs1 isAdmin s = scanSetting cfgGet obs2 isAdmin s) := by
  refine ⟨?_, ?_, ?_, ?_, ?_, ?_, ?_, ?_, ?_, ?_⟩
  · unfold get_current_state
    simp [h]
  · unfold get_mute_state
    simp [h]
  · unfold get_volume
    simp [h]
  · unfold get_autohide
    simp [h]
  · unfold get_position
    simp [h]
  · unfold get_show_hidden_files
    simp [h]
  · unfold get_show_extensions
    simp [h]
  · unfold get_screenshot_location
    simp [h]
  · intro schemas cfgGet observe isAdmin
    simp [scanResults]
  · intro cfgGet obs1 obs2 isAdmin s hobs
    unfold scanSetting
    rw [hobs]

/-- Witness for amended C6: a runner whose every command exits 1 — the
WiFi getter observes Unknown, the Dock/Finder/System getters their
fallbacks, and the containment conclusions hold. -/
theorem observe_failure_contained_witness :
    (∀ cmd, (failingRun cmd).exitCode ≠ 0) ∧
    (get_current_state failingRun "en0" = none ∧
     get_mute_state failingRun = none ∧
     get_volume failingRun = none ∧
     get_autohide failingRun = some (.bool false) ∧
     get_position failingRun = some (.str "bottom") ∧
     get_show_hidden_files failingRun = some (.bool false) ∧
     get_show_extensions failingRun = some (.bool false) ∧
     get_screenshot_location failingRun "/Users/u/Desktop"
       = some (.str "/Users/u/Desktop") ∧
     (∀ schemas cfgGet observe isAdmin,
       (scanResults schemas cfgGet observe isAdmin).length =
         (visitOrder schemas).length) ∧
     (∀ (cfgGet obs1 obs2 : String → Option Value) (isAdmin : Bool)
         (s : SettingSchema),
       obs1 s.key = obs2 s.key →
       scanSetting cfgGet obs1 isAdmin s = scanSetting cfgGet obs2 isAdmin s)) :=
  ⟨fun _ => Nat.one_ne_zero,
   observe_failure_contained failingRun "en0" "/Users/u/Desktop"
     (fun _ => Nat.one_ne_zero)⟩

/-- Claim C3, evaluated at a failing input: in `--apply` mode with one
configured setting whose apply fails, the process still performs a
blocking interactive read (`console.input("Press Enter to continue...")`)
and exits 0 even though the pass recorded one failure — the code neither
runs unattended nor reflects failures in its exit code. -/
theorem apply_mode_exit_zero_despite_failure :
    (mainApply (some "default") [] [wifiSchema] wifiCfg wifiObsOff
        (fun _ _ => false) true).exitCode = 0 ∧
    (mainApply (some "default") [] [wifiSchema] wifiCfg wifiObsOff
        (fun _ _ => false) true).inputReads = 1 ∧
    (mainApply (some "default") [] [wifiSchema] wifiCfg wifiObsOff
        (fun _ _ => false) true).outcome.map ApplyOutcome.failCount
      = some 1 := by decide

/-- Counterexample to C7 as stated: with a schema whose categories
interleave (`wifi_enabled` under Network, `dock_autohide` under Dock,
`audio_output_volume` under Network again) and every setting configured,
the sequence of settings visited by the pass is the category-grouped
order (wifi, volume, dock), not the schema's definition order
(wifi, dock, volume). -/
theorem diff_order_not_schema_definition_order :
    ((visitOrder [wifiSchema, dockSchema, volNetSchema]).filter
        (fun s => (allConfigured s.key).isSome)).map (fun s => s.key) ≠
      (([wifiSchema, dockSchema, volNetSchema].filter
        (fun s => (allConfigured s.key).isSome)).map (fun s => s.key)) := by
  decide

/-- Claim C7 (amended): diff and apply visit settings grouped by category
— categories in order of first appearance among all schema settings (the
bucket is created before the handler check, so even a setting that is
later skipped as unresolvable fixes its category's position), and within
each category the resolvable settings in schema definition order — and
apply invokes setters in exactly the order this scan produced: the setter
invocation sequence equals the to-apply selection, which is a subsequence
of the grouped visit order, with no reordering. -/
theorem diff_apply_order_grouped_by_category
    (schemas : List SettingSchema) (cfgGet observe : String → Option Value)
    (applyFn : String → Value → Bool) (isAdmin : Bool) :
    visitOrder schemas = (categoryOrder schemas).flatMap
      (fun c => (schemas.filter resolvable).filter
        (fun s => s.category = c)) ∧
    (apply_settings schemas cfgGet observe applyFn isAdmin).trace.map Prod.fst
      = (toApply schemas cfgGet observe isAdmin).map Prod.fst ∧
    List.Sublist ((toApply schemas cfgGet observe isAdmin).map Prod.fst)
      ((visitOrder schemas).map (fun s => s.key)) := by
  refine ⟨visitOrder_grouped schemas,
    trace_keys schemas cfgGet observe applyFn isAdmin, ?_⟩
  unfold toApply
  rw [List.map_filterMap]
  apply filterMap_map_sublist
  intro s k hk
  rw [Option.map_eq_some'] at hk
  obtain ⟨p, hp, hpk⟩ := hk
  obtain ⟨v, rfl, _⟩ := (applySelector_eq_some cfgGet observe isAdmin s p).mp hp
  exact hpk

/-- Claim C9: the privilege flag is sampled exactly once, at configurator
construction, and the whole pass reads that snapshot: two privilege
environments that agree at construction time produce identical apply
passes, however they differ at every later instant. -/
theorem privilege_flag_snapshot (env1 env2 : Nat → Bool) (t0 : Nat)
    (schemas : List SettingSchema) (cfgGet observe : String → Option Value)
    (applyFn : String → Value → Bool)
    (h : env1 t0 = env2 t0) :
    (mkConfigurator env1 t0 schemas).isAdmin = env1 t0 ∧
    (mkConfigurator env1 t0 schemas).applyPass cfgGet observe applyFn =
      (mkConfigurator env2 t0 schemas).applyPass cfgGet observe applyFn := by
  unfold mkConfigurator Configurator.applyPass
  rw [h]
  exact ⟨rfl, rfl⟩

/-- Witness for C9: an always-privileged environment and one that is
privileged only at instant 0 (they disagree at every later instant) give
the same pass when construction happens at time 0. -/
theorem privilege_flag_snapshot_witness :
    ((fun _ : Nat => true) 0 = (fun t : Nat => t == 0) 0) ∧
    ((mkConfigurator (fun _ => true) 0 [wifiSchema]).isAdmin = true ∧
     (mkConfigurator (fun _ => true) 0 [wifiSchema]).applyPass wifiCfg
         (fun _ => none) (fun _ _ => true) =
       (mkConfigurator (fun t => t == 0) 0 [wifiSchema]).applyPass wifiCfg
         (fun _ => none) (fun _ _ => true)) ∧
    (fun _ : Nat => true) 1 ≠ (fun t : Nat => t == 0) 1 :=
  ⟨by decide,
   privilege_flag_snapshot (fun _ => true) (fun t => t == 0) 0 [wifiSchema]
     wifiCfg (fun _ => none) (fun _ _ => true) (by decide),
   by decide⟩

/-- Claim C10: for the three container-valued settings, an explicitly
configured but empty container is never applied — the scan skips it and
its setter is never invoked — while any non-empty configured container is
always selected for apply, whatever the observed state and the privilege
flag. -/
theorem empty_container_never_applied
    (schemas : List SettingSchema) (cfgGet observe : String → Option Value)
    (isAdmin : Bool) (s : SettingSchema) (v : Value)
    (hk : containerKeys.contains s.key = true)
    (hc : cfgGet s.key = some v)
    (huniq : ∀ t ∈ visitOrder schemas, t.key = s.key → t = s) :
    ((v = .list [] ∨ v = .dict []) →
      scanSetting cfgGet observe isAdmin s = .containerSkip ∧
      s.key ∉ (toApply schemas cfgGet observe isAdmin).map Prod.fst ∧
      (∀ f, s.key ∉
        (apply_settings schemas cfgGet observe f isAdmin).trace.map Prod.fst)) ∧
    (pyTruthy v = true →
      scanSetting cfgGet observe isAdmin s = .containerApply v ∧
      (s ∈ visitOrder schemas →
        (s.key, v) ∈ toApply schemas cfgGet observe isAdmin)) := by
  have hk' : s.key ∈ containerKeys := by simpa using hk
  constructor
  · intro hv
    have hts : pyTruthy v = false := by
      rcases hv with rfl | rfl <;> decide
    have hs : scanSetting cfgGet observe isAdmin s = .containerSkip := by
      unfold scanSetting
      rw [hc]
      simp [hk', hts]
    have hnot : s.key ∉ (toApply schemas cfgGet observe isAdmin).map Prod.fst := by
      intro hmem
      obtain ⟨t, ht, htk, w, hw⟩ :=
        (mem_toApply_key schemas cfgGet observe isAdmin s.key).mp hmem
      have hts2 := huniq t ht htk
      subst hts2
      rcases hw with hw | hw <;> rw [hs] at hw <;> cases hw
    refine ⟨hs, hnot, fun f => ?_⟩
    rw [trace_keys]
    exact hnot
  · intro ht
    have hs : scanSetting cfgGet observe isAdmin s = .containerApply v := by
      unfold scanSetting
      rw [hc]
      simp [hk', ht]
    refine ⟨hs, fun hmem => List.mem_filterMap.mpr ⟨s, hmem, ?_⟩⟩
    exact (applySelector_eq_some cfgGet observe isAdmin s _).mpr
      ⟨v, rfl, Or.inl hs⟩

/-- Witness for C10: `startup_items_blocked` configured to the empty list
is skipped; its setter never runs. -/
theorem empty_container_never_applied_witness :
    (containerKeys.contains startupSchema.key = true ∧
     emptyStartupCfg startupSchema.key = some (.list []) ∧
     (∀ t ∈ visitOrder [startupSchema], t.key = startupSchema.key →
        t = startupSchema)) ∧
    (((.list []) = Value.list [] ∨ (.list []) = Value.dict []) →
      scanSetting emptyStartupCfg (fun _ => none) false startupSchema
          = .containerSkip ∧
      startupSchema.key ∉
        (toApply [startupSchema] emptyStartupCfg (fun _ => none) false).map
          Prod.fst ∧
      (∀ f, startupSchema.key ∉
        (apply_settings [startupSchema] emptyStartupCfg (fun _ => none) f
            false).trace.map Prod.fst)) :=
  ⟨⟨by decide, by decide, by decide⟩,
   (empty_container_never_applied [startupSchema] emptyStartupCfg
     (fun _ => none) false startupSchema (.list []) (by decide) (by decide)
     (by decide)).1⟩

/-- Witness for C8: writing `audio_output_volume = 50` over a valid store
and reading it back returns 50, and the write persists. -/
theorem set_then_get_roundtrip_witness :
    findSchema [volSchema] "audio_output_volume" = some volSchema ∧
    validateValue volSchema.vtype (.int 50) = true ∧
    (get_setting
        (set_setting [volSchema] ⟨[("audio_output_volume", .int 10)],
            [("audio_output_volume", .int 10)]⟩ "audio_output_volume"
            (.int 50)).1 "audio_output_volume" = some (.int 50) ∧
      (validConfig [volSchema] [("audio_output_volume", .int 10)] = true →
        (set_setting [volSchema] ⟨[("audio_output_volume", .int 10)],
            [("audio_output_volume", .int 10)]⟩ "audio_output_volume"
            (.int 50)).2 = .ok () ∧
        (set_setting [volSchema] ⟨[("audio_output_volume", .int 10)],
            [("audio_output_volume", .int 10)]⟩ "audio_output_volume"
            (.int 50)).1.file
          = settingsSet [("audio_output_volume", .int 10)]
              "audio_output_volume" (.int 50))) :=
  ⟨by decide, by decide,
   set_then_get_roundtrip [volSchema] _ "audio_output_volume" (.int 50)
     volSchema (by decide) (by decide)⟩

end MacConfigurator
